import Mathlib

/-!
Verification of the sports-facility booking service (src/main.py with the
pydantic models of src/schemas.py) against its design document.

The service keeps two MongoDB collections, "sport" and "booking"; here they
are the two lists of a `DB` record.  The three operations `list_sports`,
`create_booking` and `list_bookings` of src/main.py are translated one to
one; MongoDB string comparison (`$lt` / `$gt` and ascending sort keys on
strings) is modelled by `strLt`, code-point lexicographic order, which for
the UTF-8 encoded strings MongoDB stores coincides with byte order.
-/

/-! ## MongoDB string comparison -/

/-- Lexicographic strict order on character lists by code point, the order
MongoDB uses for `$lt` / `$gt` and sort keys on UTF-8 strings (byte order,
which equals code-point order).  A proper prefix is smaller. -/
def charListLt : List Char → List Char → Bool
  | _, [] => false
  | [], _ :: _ => true
  | a :: as, b :: bs =>
    if a.toNat < b.toNat then true
    else if b.toNat < a.toNat then false
    else charListLt as bs

/-- MongoDB comparison `a < b` on strings. -/
def strLt (a b : String) : Bool := charListLt a.data b.data

/-! ## Python `int(...)` on strings, and the hour parsing of create_booking -/

/-- ASCII digit test, `'0'` to `'9'`. -/
def isDigitChar (c : Char) : Bool := decide (48 ≤ c.toNat) && decide (c.toNat ≤ 57)

/-- Strip leading and trailing whitespace, as Python `int(...)` does before
reading the number. -/
def pyTrimChars (cs : List Char) : List Char :=
  ((cs.dropWhile Char.isWhitespace).reverse.dropWhile Char.isWhitespace).reverse

/-- Value of a list of ASCII digits read in base 10. -/
def digitsToNat (cs : List Char) : Nat := cs.foldl (fun n c => 10 * n + (c.toNat - 48)) 0

/-- Read a nonempty all-digit character list; `none` otherwise. -/
def parseDigits (cs : List Char) : Option Nat :=
  if cs ≠ [] ∧ cs.all isDigitChar then some (digitsToNat cs) else none

/-- Model of Python `int(s)` on the character list of `s`: strip whitespace,
allow one leading sign, then decimal digits; any other input raises
`ValueError`, modelled as `none`.  (Python's digit-group underscores and
non-ASCII digits are irrelevant here: no claim touches such inputs.) -/
def pyIntChars (cs : List Char) : Option Int :=
  match pyTrimChars cs with
  | '-' :: rest => (parseDigits rest).map (fun n => -(n : Int))
  | '+' :: rest => (parseDigits rest).map (fun n => (n : Int))
  | t => (parseDigits t).map (fun n => (n : Int))

/-- Model of `int(s.split(":")[0])` from src/main.py lines 97-98: Python
`split` makes the part before the first `':'` (the whole string when there
is none) the first field, then `int` parses it. -/
def parseHour (s : String) : Option Int :=
  pyIntChars (s.data.takeWhile (fun c => !(c == ':')))

/-- The try-block of src/main.py lines 96-102: parse both hours, raise
(`none`, surfaced as the 400 "Invalid time range") when either parse fails
or `end_h <= start_h`, otherwise the positive duration in hours. -/
def validateSlot (start_time end_time : String) : Option Int :=
  match parseHour start_time, parseHour end_time with
  | some s, some e => if e ≤ s then none else some (e - s)
  | _, _ => none

/-! ## Data model (src/schemas.py) -/

/-- The `Sport` pydantic model (src/schemas.py lines 19-29). -/
structure Sport where
  key : String
  name : String
  courts : Int
  price_per_hour : Int
  open_hour : Int
  close_hour : Int
deriving DecidableEq

/-- The `Booking` pydantic model (src/schemas.py lines 31-45); `BookingCreate`
of src/main.py line 81 is the same model. -/
structure Booking where
  customer_name : String
  phone : String
  sport : String
  court : Int
  date : String
  start_time : String
  end_time : String
  status : String
  notes : Option String
  total_price : Option Int
deriving DecidableEq

/-- The language of the time-field regex `^([01]?[0-9]|2[0-3]):00$`
(src/schemas.py lines 41-42) is finite; this list enumerates it exactly:
hour parts are one digit `0`-`9`, or `0`/`1` followed by a digit, or `2`
followed by `0`-`3`, each suffixed with `":00"`. -/
def timePatternStrings : List String :=
  (((List.range 10).map (fun d => Nat.repr d)) ++
   ((List.range 10).map (fun d => "0" ++ Nat.repr d)) ++
   ((List.range 10).map (fun d => "1" ++ Nat.repr d)) ++
   ((List.range 4).map (fun d => "2" ++ Nat.repr d))).map (fun h => h ++ ":00")

/-- Membership in the (finite) language of the time-field regex. -/
def matchesTimePattern (s : String) : Bool :=
  timePatternStrings.any (fun t => s == t)

/-- The field constraints pydantic checks on a `Booking` payload
(src/schemas.py lines 36-45): `court >= 1`, both time fields match the
pattern, and `total_price`, when present, is nonnegative. -/
def bookingSchemaOK (b : Booking) : Bool :=
  decide (1 ≤ b.court) && matchesTimePattern b.start_time &&
  matchesTimePattern b.end_time &&
  (match b.total_price with | none => true | some p => decide (0 ≤ p))

/-! ## The store and the three operations (src/main.py) -/

/-- The document store: the "sport" and "booking" collections. -/
structure DB where
  sports : List Sport
  bookings : List Booking
deriving DecidableEq

/-- The three seeded defaults of src/main.py lines 44-69. -/
def futsal : Sport :=
  { key := "futsal", name := "Futsal", courts := 3, price_per_hour := 150000,
    open_hour := 8, close_hour := 23 }

/-- Second seeded default, src/main.py lines 53-60. -/
def minisoccer : Sport :=
  { key := "minisoccer", name := "Mini Soccer", courts := 2, price_per_hour := 250000,
    open_hour := 8, close_hour := 23 }

/-- Third seeded default, src/main.py lines 61-68. -/
def badminton : Sport :=
  { key := "badminton", name := "Badminton", courts := 6, price_per_hour := 60000,
    open_hour := 7, close_hour := 22 }

/-- The `defaults` list inserted by `list_sports` when the catalog is empty. -/
def defaultSports : List Sport := [futsal, minisoccer, badminton]

/-- `GET /sports` (src/main.py lines 36-78): when the "sport" collection is
empty, insert the three defaults and re-read; the returned list is the
collection contents. -/
def list_sports (db : DB) : DB × List Sport :=
  if db.sports.isEmpty then
    ({ db with sports := defaultSports }, defaultSports)
  else (db, db.sports)

/-- `db["sport"].find_one({"key": key})` (src/main.py line 91). -/
def findSport (sports : List Sport) (key : String) : Option Sport :=
  sports.find? (fun s => s.key == key)

/-- The overlap query of src/main.py lines 108-115: a stored booking
conflicts with the request when sport, court and date are equal and
`start_time < requested end` and `end_time > requested start`, both
compared as strings by MongoDB. -/
def hasConflict (ledger : List Booking) (sport : String) (court : Int)
    (date : String) (start_time end_time : String) : Bool :=
  ledger.any (fun b =>
    b.sport == sport && b.court == court && b.date == date &&
    strLt b.start_time end_time && strLt start_time b.end_time)

/-- The error detail strings of `create_booking`, as an error type:
404 "Sport not found", 400 "Invalid time range", 409 "Slot already booked
for this court". -/
inductive BookingError where
  | NotFound
  | InvalidRange
  | Conflict
deriving DecidableEq

/-- Outcome of `POST /bookings`: the 201 body's `total_price`, or one of the
three raised errors. -/
inductive BookingResult where
  | ok (total_price : Int)
  | error (e : BookingError)
deriving DecidableEq

/-- The persisted document (src/main.py lines 119-120): the payload with
`total_price` set to the computed total. -/
def storedOf (r : Booking) (total : Int) : Booking := { r with total_price := some total }

/-- `POST /bookings` (src/main.py lines 85-122): look up the sport, parse and
order-check the hours, compute `total = hours * price_per_hour`, reject on
an overlapping booking, otherwise append the priced document.  The returned
`DB` is the store after the request (unchanged on every error, since each
error is raised before `create_document`). -/
def create_booking (db : DB) (r : Booking) : DB × BookingResult :=
  match findSport db.sports r.sport with
  | none => (db, .error .NotFound)
  | some sport_doc =>
    match validateSlot r.start_time r.end_time with
    | none => (db, .error .InvalidRange)
    | some hours =>
      let total := hours * sport_doc.price_per_hour
      if hasConflict db.bookings r.sport r.court r.date r.start_time r.end_time then
        (db, .error .Conflict)
      else
        ({ db with bookings := db.bookings ++ [storedOf r total] }, .ok total)

/-- The query filter of `GET /bookings` (src/main.py lines 130-134): a field
constraint is added only when the parameter is truthy in Python, so `none`
and the empty string both mean "no constraint". -/
def matchQ (b : Booking) (sport date : Option String) : Bool :=
  (match sport with
   | none => true
   | some s => if s == "" then true else b.sport == s) &&
  (match date with
   | none => true
   | some d => if d == "" then true else b.date == d)

/-- Sort key of `.sort([("date", 1), ("start_time", 1)])` (src/main.py line
136): date ascending, then start_time ascending, in MongoDB string order. -/
def keyLE (a b : Booking) : Bool :=
  strLt a.date b.date || (a.date == b.date && !(strLt b.start_time a.start_time))

/-- Insert a booking into a list sorted by `keyLE`, keeping it sorted. -/
def insertB (b : Booking) : List Booking → List Booking
  | [] => [b]
  | c :: l => if keyLE b c then b :: c :: l else c :: insertB b l

/-- Sort a booking list by `keyLE` (insertion sort; MongoDB's sort is only
specified up to the key order, which is all the design document asks). -/
def sortBookings : List Booking → List Booking
  | [] => []
  | b :: l => insertB b (sortBookings l)

/-- `GET /bookings` (src/main.py lines 125-141): the stored bookings passing
the filter, sorted by (date, start_time) ascending. -/
def list_bookings (db : DB) (sport date : Option String) : List Booking :=
  sortBookings (db.bookings.filter (fun b => matchQ b sport date))

/-- Sequential execution of a list of booking requests: each request runs
`create_booking` on the store left by the previous one (a failed request
leaves the store unchanged). -/
def runRequests (db : DB) : List Booking → DB
  | [] => db
  | r :: rs => runRequests (create_booking db r).1 rs

/-! ## Numeric (hour-valued) interval overlap, and zero-padded times -/

/-- Two bookings overlap numerically when they share (sport, court, date)
and their parsed `[start hour, end hour)` intervals intersect. -/
def numericOverlap (b1 b2 : Booking) : Bool :=
  b1.sport == b2.sport && b1.court == b2.court && b1.date == b2.date &&
  (match parseHour b1.start_time, parseHour b1.end_time,
         parseHour b2.start_time, parseHour b2.end_time with
   | some s1, some e1, some s2, some e2 => decide (s1 < e2) && decide (e1 > s2)
   | _, _, _, _ => false)

/-- The canonical zero-padded rendering `"HH:00"` of hour `h`. -/
def timeString (h : Nat) : String :=
  (if h < 10 then "0" ++ Nat.repr h else Nat.repr h) ++ ":00"

/-- A time string is zero-padded when it is `timeString h` for some hour
`h < 24`; these are the 24 strings `"00:00"` to `"23:00"`. -/
def isPaddedTime (s : String) : Bool :=
  (List.range 24).any (fun h => s == timeString h)

/-- Both time fields of a booking are zero-padded. -/
def paddedBooking (b : Booking) : Prop :=
  isPaddedTime b.start_time = true ∧ isPaddedTime b.end_time = true

/-! ## Order facts about the string comparison -/

/-- Characters with equal code points are equal. -/
theorem charEq_of_toNat {a b : Char} (h : a.toNat = b.toNat) : a = b := by
  have hv : a.val = b.val := by
    unfold Char.toNat at h
    exact UInt32.toNat.inj h
  exact Char.eq_of_val_eq hv

/-- `charListLt` is irreflexive. -/
theorem charListLt_irrefl : ∀ l : List Char, charListLt l l = false
  | [] => rfl
  | a :: as => by
    simp only [charListLt]
    rw [if_neg (lt_irrefl _), if_neg (lt_irrefl _)]
    exact charListLt_irrefl as

/-- `charListLt` is transitive. -/
theorem charListLt_trans : ∀ a b c : List Char,
    charListLt a b = true → charListLt b c = true → charListLt a c = true
  | _, b, [] => by intro _ h2; cases b <;> simp [charListLt] at h2
  | a, [], _ :: _ => by intro h1 _; cases a <;> simp [charListLt] at h1
  | [], _ :: _, _ :: _ => by intro _ _; rfl
  | a₀ :: as, b₀ :: bs, c₀ :: cs => by
    intro h1 h2
    simp only [charListLt] at h1 h2 ⊢
    rcases Nat.lt_trichotomy a₀.toNat b₀.toNat with hab | hab | hab
    · rcases Nat.lt_trichotomy b₀.toNat c₀.toNat with hbc | hbc | hbc
      · rw [if_pos (Nat.lt_trans hab hbc)]
      · rw [if_pos (hbc ▸ hab)]
      · rw [if_neg (Nat.lt_asymm hbc), if_pos hbc] at h2
        exact absurd h2 (by simp)
    · rcases Nat.lt_trichotomy b₀.toNat c₀.toNat with hbc | hbc | hbc
      · rw [if_pos (hab ▸ hbc)]
      · rw [if_neg (show ¬a₀.toNat < b₀.toNat by omega),
            if_neg (show ¬b₀.toNat < a₀.toNat by omega)] at h1
        rw [if_neg (show ¬b₀.toNat < c₀.toNat by omega),
            if_neg (show ¬c₀.toNat < b₀.toNat by omega)] at h2
        rw [if_neg (show ¬a₀.toNat < c₀.toNat by omega),
            if_neg (show ¬c₀.toNat < a₀.toNat by omega)]
        exact charListLt_trans as bs cs h1 h2
      · rw [if_neg (Nat.lt_asymm hbc), if_pos hbc] at h2
        exact absurd h2 (by simp)
    · rw [if_neg (Nat.lt_asymm hab), if_pos hab] at h1
      exact absurd h1 (by simp)

/-- Lists not related by `charListLt` either way are equal. -/
theorem charListLt_eq_of_both_false : ∀ a b : List Char,
    charListLt a b = false → charListLt b a = false → a = b
  | [], [] => by intro _ _; rfl
  | [], _ :: _ => by intro h _; simp [charListLt] at h
  | _ :: _, [] => by intro _ h; simp [charListLt] at h
  | a₀ :: as, b₀ :: bs => by
    intro h1 h2
    simp only [charListLt] at h1 h2
    rcases Nat.lt_trichotomy a₀.toNat b₀.toNat with hab | hab | hab
    · rw [if_pos hab] at h1; exact absurd h1 (by simp)
    · rw [if_neg (show ¬a₀.toNat < b₀.toNat by omega),
          if_neg (show ¬b₀.toNat < a₀.toNat by omega)] at h1
      rw [if_neg (show ¬b₀.toNat < a₀.toNat by omega),
          if_neg (show ¬a₀.toNat < b₀.toNat by omega)] at h2
      rw [charEq_of_toNat hab, charListLt_eq_of_both_false as bs h1 h2]
    · rw [if_pos hab] at h2; exact absurd h2 (by simp)

/-- Strings with equal character data are equal. -/
theorem strEq_of_data {s t : String} (h : s.data = t.data) : s = t :=
  String.toList_inj.mp h

/-- `strLt` is irreflexive. -/
theorem strLt_irrefl (s : String) : strLt s s = false := charListLt_irrefl s.data

/-- `strLt` is transitive. -/
theorem strLt_trans {a b c : String} (h1 : strLt a b = true) (h2 : strLt b c = true) :
    strLt a c = true := charListLt_trans a.data b.data c.data h1 h2

/-- Strings not `strLt`-related either way are equal. -/
theorem strLt_eq_of_both_false {a b : String} (h1 : strLt a b = false)
    (h2 : strLt b a = false) : a = b :=
  strEq_of_data (charListLt_eq_of_both_false a.data b.data h1 h2)

/-- `strLt` is asymmetric. -/
theorem strLt_asymm {a b : String} (h : strLt a b = true) : strLt b a = false := by
  by_contra hc
  have hc2 : strLt b a = true := by
    cases hba : strLt b a
    · exact absurd hba hc
    · rfl
  have haa := strLt_trans h hc2
  rw [strLt_irrefl] at haa
  exact absurd haa (by simp)

/-! ## Evaluation facts about the 24 zero-padded and 34 pattern time strings -/

/-- Parsing a zero-padded time string recovers its hour. -/
theorem parseHour_timeString : ∀ h ∈ List.range 24, parseHour (timeString h) = some (h : Int) := by
  decide

/-- On zero-padded time strings, MongoDB string comparison agrees with the
numeric hour comparison. -/
theorem strLt_timeString : ∀ h1 ∈ List.range 24, ∀ h2 ∈ List.range 24,
    strLt (timeString h1) (timeString h2) = decide (h1 < h2) := by
  decide

/-- Every string of the time-field pattern parses to some hour. -/
theorem pattern_parses : ∀ s ∈ timePatternStrings, (parseHour s).isSome = true := by
  decide

/-- `isPaddedTime` membership, unfolded. -/
theorem isPaddedTime_iff (s : String) :
    isPaddedTime s = true ↔ ∃ h, h ∈ List.range 24 ∧ s = timeString h := by
  simp [isPaddedTime, List.any_eq_true]

/-- `matchesTimePattern` membership, unfolded. -/
theorem matchesTimePattern_iff (s : String) :
    matchesTimePattern s = true ↔ s ∈ timePatternStrings := by
  simp [matchesTimePattern, List.any_eq_true]

/-! ## Sort-key facts and insertion sort correctness -/

/-- The sort key is total. -/
theorem keyLE_total (a b : Booking) : keyLE a b = true ∨ keyLE b a = true := by
  unfold keyLE
  cases hd : strLt a.date b.date
  · cases hd2 : strLt b.date a.date
    · have he : a.date = b.date := strLt_eq_of_both_false hd hd2
      cases hs : strLt b.start_time a.start_time
      · left; simp [he, hs]
      · right
        have ha : strLt a.start_time b.start_time = false := strLt_asymm hs
        simp [he, ha]
    · right; simp [hd2]
  · left; simp

/-- The sort key is transitive. -/
theorem keyLE_trans {a b c : Booking} (h1 : keyLE a b = true) (h2 : keyLE b c = true) :
    keyLE a c = true := by
  unfold keyLE at h1 h2 ⊢
  simp only [Bool.or_eq_true, Bool.and_eq_true, beq_iff_eq, Bool.not_eq_true'] at h1 h2 ⊢
  rcases h1 with h1 | ⟨hd1, hs1⟩
  · rcases h2 with h2 | ⟨hd2, hs2⟩
    · exact Or.inl (strLt_trans h1 h2)
    · exact Or.inl (hd2 ▸ h1)
  · rcases h2 with h2 | ⟨hd2, hs2⟩
    · left; rw [hd1]; exact h2
    · right
      refine ⟨hd1.trans hd2, ?_⟩
      cases hca : strLt c.start_time a.start_time
      · rfl
      · exfalso
        cases hbc : strLt b.start_time c.start_time
        · have hbeq : b.start_time = c.start_time := strLt_eq_of_both_false hbc hs2
          rw [← hbeq, hs1] at hca
          exact Bool.false_ne_true hca
        · have hba := strLt_trans hbc hca
          rw [hs1] at hba
          exact Bool.false_ne_true hba

/-- Inserting into the sorted list is a permutation of consing. -/
theorem insertB_perm (b : Booking) : ∀ l : List Booking, (insertB b l).Perm (b :: l)
  | [] => List.Perm.refl _
  | c :: l => by
    simp only [insertB]
    by_cases h : keyLE b c = true
    · rw [if_pos h]
    · rw [if_neg h]
      exact ((insertB_perm b l).cons c).trans (List.Perm.swap b c l)

/-- Sorting is a permutation. -/
theorem sortBookings_perm : ∀ l : List Booking, (sortBookings l).Perm l
  | [] => List.Perm.refl _
  | b :: l => (insertB_perm b (sortBookings l)).trans ((sortBookings_perm l).cons b)

/-- Membership after insertion. -/
theorem mem_insertB {x b : Booking} {l : List Booking} :
    x ∈ insertB b l ↔ x = b ∨ x ∈ l := by
  rw [(insertB_perm b l).mem_iff]
  simp

/-- Insertion keeps the list sorted by the key. -/
theorem pairwise_insertB (b : Booking) : ∀ l : List Booking,
    l.Pairwise (fun x y => keyLE x y = true) →
    (insertB b l).Pairwise (fun x y => keyLE x y = true)
  | [], _ => by simp [insertB]
  | c :: l, h => by
    rw [List.pairwise_cons] at h
    obtain ⟨hc, hl⟩ := h
    simp only [insertB]
    by_cases hbc : keyLE b c = true
    · rw [if_pos hbc, List.pairwise_cons]
      refine ⟨?_, ?_⟩
      · intro x hx
        rcases List.mem_cons.mp hx with rfl | hx
        · exact hbc
        · exact keyLE_trans hbc (hc x hx)
      · rw [List.pairwise_cons]
        exact ⟨hc, hl⟩
    · rw [if_neg hbc, List.pairwise_cons]
      refine ⟨?_, pairwise_insertB b l hl⟩
      intro x hx
      rcases mem_insertB.mp hx with rfl | hx
      · rcases keyLE_total c x with h | h
        · exact h
        · exact absurd h hbc
      · exact hc x hx

/-- The sorted list is pairwise ordered by the key. -/
theorem pairwise_sortBookings : ∀ l : List Booking,
    (sortBookings l).Pairwise (fun x y => keyLE x y = true)
  | [] => List.Pairwise.nil
  | b :: l => pairwise_insertB b (sortBookings l) (pairwise_sortBookings l)

/-! ## Numeric overlap versus the string-compared conflict query -/

/-- On zero-padded bookings, numeric hour-interval overlap coincides with the
string-compared overlap condition of the conflict query. -/
theorem numericOverlap_eq_strCheck {b r : Booking}
    (hb : paddedBooking b) (hr : paddedBooking r) :
    numericOverlap b r =
      (b.sport == r.sport && b.court == r.court && b.date == r.date &&
       strLt b.start_time r.end_time && strLt r.start_time b.end_time) := by
  obtain ⟨hbs, hbe⟩ := hb
  obtain ⟨hrs, hre⟩ := hr
  obtain ⟨h1, h1m, e1⟩ := (isPaddedTime_iff _).mp hbs
  obtain ⟨h2, h2m, e2⟩ := (isPaddedTime_iff _).mp hbe
  obtain ⟨h3, h3m, e3⟩ := (isPaddedTime_iff _).mp hrs
  obtain ⟨h4, h4m, e4⟩ := (isPaddedTime_iff _).mp hre
  simp only [numericOverlap, e1, e2, e3, e4,
    parseHour_timeString h1 h1m, parseHour_timeString h2 h2m,
    parseHour_timeString h3 h3m, parseHour_timeString h4 h4m,
    strLt_timeString h1 h1m h4 h4m, strLt_timeString h3 h3m h2 h2m]
  have hd1 : decide ((h1 : Int) < (h4 : Int)) = decide (h1 < h4) := by
    rw [decide_eq_decide]
    exact_mod_cast Iff.rfl
  have hd2 : decide ((h2 : Int) > (h3 : Int)) = decide (h3 < h2) := by
    rw [decide_eq_decide, gt_iff_lt]
    exact_mod_cast Iff.rfl
  rw [hd1, hd2]
  simp [Bool.and_assoc]

/-- The store invariant maintained by sequential booking creation: every
stored booking has zero-padded times, and no two stored bookings overlap
numerically on the same (sport, court, date). -/
def ledgerInv (l : List Booking) : Prop :=
  (∀ b ∈ l, paddedBooking b) ∧ l.Pairwise (fun b1 b2 => numericOverlap b1 b2 = false)

/-- One `create_booking` call preserves the ledger invariant when the request
has zero-padded times. -/
theorem create_booking_preserves (db : DB) (r : Booking)
    (hr : paddedBooking r) (hinv : ledgerInv db.bookings) :
    ledgerInv (create_booking db r).1.bookings := by
  unfold create_booking
  cases hfs : findSport db.sports r.sport with
  | none => exact hinv
  | some sp =>
    cases hv : validateSlot r.start_time r.end_time with
    | none => exact hinv
    | some d =>
      by_cases hc : hasConflict db.bookings r.sport r.court r.date r.start_time r.end_time = true
      · simp only [hc, if_true]
        exact hinv
      · have hcf : hasConflict db.bookings r.sport r.court r.date r.start_time r.end_time = false :=
          Bool.not_eq_true _ ▸ Bool.of_not_eq_true hc
        simp only [hcf, Bool.false_eq_true, if_false]
        constructor
        · intro b hb
          rcases List.mem_append.mp hb with hb | hb
          · exact hinv.1 b hb
          · rw [List.mem_singleton.mp hb]
            exact hr
        · rw [List.pairwise_append]
          refine ⟨hinv.2, by simp, ?_⟩
          intro b hb x hx
          rw [List.mem_singleton.mp hx]
          have hb_pad := hinv.1 b hb
          have hsame : numericOverlap b (storedOf r (d * sp.price_per_hour)) = numericOverlap b r := rfl
          rw [hsame, numericOverlap_eq_strCheck hb_pad hr]
          simp only [hasConflict, List.any_eq_false] at hcf
          have := hcf b hb
          simpa using this

/-- Sequential execution from an invariant-satisfying store of any list of
zero-padded requests keeps the invariant. -/
theorem runRequests_inv : ∀ (reqs : List Booking) (db : DB),
    (∀ r ∈ reqs, paddedBooking r) → ledgerInv db.bookings →
    ledgerInv (runRequests db reqs).bookings
  | [], _, _, hinv => hinv
  | r :: rs, db, hall, hinv => by
    simp only [runRequests]
    exact runRequests_inv rs _ (fun x hx => hall x (List.mem_cons_of_mem _ hx))
      (create_booking_preserves db r (hall r (List.mem_cons_self _ _)) hinv)

/-! ## Concrete requests and records used in the claim theorems -/

/-- A schema-valid padded request: futsal court 1 on 2024-06-01, 09:00-11:00. -/
def rOk : Booking :=
  { customer_name := "Ana", phone := "0811", sport := "futsal", court := 1,
    date := "2024-06-01", start_time := "09:00", end_time := "11:00",
    status := "confirmed", notes := none, total_price := none }

/-- A schema-valid padded request on the same court, 11:00-13:00. -/
def rLater : Booking :=
  { customer_name := "Bo", phone := "0812", sport := "futsal", court := 1,
    date := "2024-06-01", start_time := "11:00", end_time := "13:00",
    status := "confirmed", notes := none, total_price := none }

/-- A schema-valid request with a non-padded start time, 9:00-11:00: the
pattern `[01]?[0-9]` accepts the bare digit `9`. -/
def rNine : Booking :=
  { customer_name := "Cy", phone := "0813", sport := "futsal", court := 1,
    date := "2024-06-01", start_time := "9:00", end_time := "11:00",
    status := "confirmed", notes := none, total_price := none }

/-- A schema-valid padded request 09:00-10:00, numerically inside 9:00-11:00. -/
def rZeroNine : Booking :=
  { customer_name := "Di", phone := "0814", sport := "futsal", court := 1,
    date := "2024-06-01", start_time := "09:00", end_time := "10:00",
    status := "confirmed", notes := none, total_price := none }

/-- A stored booking 08:00-10:00 on futsal court 1, 2024-06-01. -/
def bEx0810 : Booking :=
  { customer_name := "Ed", phone := "0815", sport := "futsal", court := 1,
    date := "2024-06-01", start_time := "08:00", end_time := "10:00",
    status := "confirmed", notes := none, total_price := some 300000 }

/-- Claim C1 (amended): under sequential execution of create_booking from an
empty ledger, when every request satisfies the Booking schema and in
addition has zero-padded two-digit-hour time fields, then after any prefix
of the requests the stored ledger contains no two bookings with the same
(sport, court, date) whose [start_time, end_time) hour intervals overlap
numerically.  (The amendment adds the zero-padding restriction: the schema
pattern also admits one-digit hours such as "9:00", and on those the
string-order conflict check misses numeric overlaps.) -/
theorem claim_C1 (sports : List Sport) (reqs : List Booking)
    (hreq : ∀ r ∈ reqs, bookingSchemaOK r = true ∧
      isPaddedTime r.start_time = true ∧ isPaddedTime r.end_time = true) :
    ∀ n : Nat, ((runRequests ⟨sports, []⟩ (reqs.take n)).bookings).Pairwise
      (fun b1 b2 => numericOverlap b1 b2 = false) := by
  intro n
  have h := runRequests_inv (reqs.take n) ⟨sports, []⟩
    (fun r hr =>
      ⟨(hreq r (List.take_subset n reqs hr)).2.1, (hreq r (List.take_subset n reqs hr)).2.2⟩)
    ⟨by simp, List.Pairwise.nil⟩
  exact h.2

/-- Claim C1 counterexample: both requests satisfy the Booking schema (the
pattern admits the non-padded "9:00"), yet running them sequentially from
an empty ledger stores both: the string comparison "9:00" < "10:00" is
false, so the conflict check misses the numeric overlap of [9,11) and
[9,10), and the final ledger holds two numerically overlapping bookings on
the same (sport, court, date). -/
theorem claim_C1_counterexample :
    bookingSchemaOK rNine = true ∧ bookingSchemaOK rZeroNine = true ∧
    (runRequests ⟨[futsal], []⟩ [rNine, rZeroNine]).bookings.length = 2 ∧
    numericOverlap ((runRequests ⟨[futsal], []⟩ [rNine, rZeroNine]).bookings.getD 0 rNine)
      ((runRequests ⟨[futsal], []⟩ [rNine, rZeroNine]).bookings.getD 1 rNine) = true := by
  decide

/-- Witness for claim C1 at a concrete run of two padded requests. -/
theorem claim_C1_witness :
    ((runRequests ⟨[futsal], []⟩ ([rOk, rLater].take 2)).bookings).Pairwise
      (fun b1 b2 => numericOverlap b1 b2 = false) :=
  claim_C1 [futsal] [rOk, rLater] (by decide) 2

/-- Claim C2: the availability check reports a conflict exactly when some
stored booking with equal (sport, court, date) has existing start <
requested end and existing end > requested start, compared as time strings;
in particular an existing [08:00,10:00) conflicts with a requested
[09:00,11:00) but not with a requested [10:00,12:00). -/
theorem claim_C2 (ledger : List Booking) (sp : String) (c : Int) (d : String)
    (st et : String) :
    (hasConflict ledger sp c d st et = true ↔
      ∃ b, b ∈ ledger ∧ b.sport = sp ∧ b.court = c ∧ b.date = d ∧
        strLt st b.end_time = true ∧ strLt b.start_time et = true) ∧
    hasConflict [bEx0810] "futsal" 1 "2024-06-01" "09:00" "11:00" = true ∧
    hasConflict [bEx0810] "futsal" 1 "2024-06-01" "10:00" "12:00" = false := by
  refine ⟨?_, by decide, by decide⟩
  simp only [hasConflict, List.any_eq_true, Bool.and_eq_true, beq_iff_eq, and_assoc]
  constructor
  · rintro ⟨b, hb, hs, hc, hd, h1, h2⟩
    exact ⟨b, hb, hs, hc, hd, h2, h1⟩
  · rintro ⟨b, hb, hs, hc, hd, h2, h1⟩
    exact ⟨b, hb, hs, hc, hd, h1, h2⟩

/-- Claim C3: create_booking checks in the fixed order sport lookup, time
range, slot availability, failing with NotFound, InvalidRange, Conflict
respectively at the first violated check (an unknown sport yields NotFound
whatever the time fields), and when all checks pass it appends the priced
booking and returns the computed total. -/
theorem claim_C3 (db : DB) (r : Booking) :
    ((create_booking db r).2 = .error .NotFound ↔ findSport db.sports r.sport = none) ∧
    ((create_booking db r).2 = .error .InvalidRange ↔
      (∃ sp, findSport db.sports r.sport = some sp) ∧
      validateSlot r.start_time r.end_time = none) ∧
    ((create_booking db r).2 = .error .Conflict ↔
      (∃ sp, findSport db.sports r.sport = some sp) ∧
      (∃ d, validateSlot r.start_time r.end_time = some d) ∧
      hasConflict db.bookings r.sport r.court r.date r.start_time r.end_time = true) ∧
    (∀ sp d, findSport db.sports r.sport = some sp →
      validateSlot r.start_time r.end_time = some d →
      hasConflict db.bookings r.sport r.court r.date r.start_time r.end_time = false →
      (create_booking db r).2 = .ok (d * sp.price_per_hour) ∧
      (create_booking db r).1.bookings = db.bookings ++ [storedOf r (d * sp.price_per_hour)]) := by
  cases hfs : findSport db.sports r.sport with
  | none =>
    refine ⟨by simp [create_booking, hfs], by simp [create_booking, hfs],
      by simp [create_booking, hfs], ?_⟩
    intro sp d hsp
    exact absurd hsp (by simp)
  | some sp0 =>
    cases hv : validateSlot r.start_time r.end_time with
    | none =>
      refine ⟨by simp [create_booking, hfs, hv], by simp [create_booking, hfs, hv],
        by simp [create_booking, hfs, hv], ?_⟩
      intro sp d _ hd
      exact absurd hd (by simp)
    | some d0 =>
      cases hc : hasConflict db.bookings r.sport r.court r.date r.start_time r.end_time with
      | true =>
        refine ⟨by simp [create_booking, hfs, hv, hc], by simp [create_booking, hfs, hv, hc],
          by simp [create_booking, hfs, hv, hc], ?_⟩
        intro sp d _ _ hcf
        exact absurd hcf (by simp)
      | false =>
        refine ⟨by simp [create_booking, hfs, hv, hc], by simp [create_booking, hfs, hv, hc],
          by simp [create_booking, hfs, hv, hc], ?_⟩
        intro sp d hsp hd _
        obtain rfl : sp0 = sp := Option.some.inj hsp
        obtain rfl : d0 = d := Option.some.inj hd
        constructor
        · simp [create_booking, hfs, hv, hc]
        · simp [create_booking, hfs, hv, hc]

/-- Witness for claim C3: the all-checks-pass branch on a fresh store. -/
theorem claim_C3_witness :
    (create_booking ⟨[futsal], []⟩ rOk).2 = .ok (2 * futsal.price_per_hour) ∧
    (create_booking ⟨[futsal], []⟩ rOk).1.bookings =
      [] ++ [storedOf rOk (2 * futsal.price_per_hour)] :=
  (claim_C3 ⟨[futsal], []⟩ rOk).2.2.2 futsal 2 (by decide) (by decide) (by decide)

/-- Claim C4: slot validation fails exactly when hour parsing fails or the
end hour is at most the start hour; otherwise it yields the positive
duration end hour minus start hour, which times the sport's price per hour
is the returned total; with the spec's examples 09:00-11:00 gives 2,
11:00-09:00 and 09:00-09:00 fail, and duration 3 at rate 150000 totals
450000. -/
theorem claim_C4 (st et : String) :
    (validateSlot st et = none ↔
      parseHour st = none ∨ parseHour et = none ∨
      ∃ s e, parseHour st = some s ∧ parseHour et = some e ∧ e ≤ s) ∧
    (∀ d, validateSlot st et = some d →
      0 < d ∧ ∃ s e, parseHour st = some s ∧ parseHour et = some e ∧ d = e - s) ∧
    (∀ (db : DB) (r : Booking) (sp : Sport) (d : Int),
      findSport db.sports r.sport = some sp →
      validateSlot r.start_time r.end_time = some d →
      hasConflict db.bookings r.sport r.court r.date r.start_time r.end_time = false →
      (create_booking db r).2 = .ok (d * sp.price_per_hour)) ∧
    validateSlot "09:00" "11:00" = some 2 ∧
    validateSlot "11:00" "09:00" = none ∧
    validateSlot "09:00" "09:00" = none ∧
    (3 : Int) * futsal.price_per_hour = 450000 := by
  refine ⟨?_, ?_, ?_, by decide, by decide, by decide, by decide⟩
  · cases hst : parseHour st with
    | none => simp [validateSlot, hst]
    | some s0 =>
      cases het : parseHour et with
      | none => simp [validateSlot, hst, het]
      | some e0 =>
        simp only [validateSlot, hst, het]
        by_cases hle : e0 ≤ s0
        · simp [hle]
        · simp [hle]
  · intro d hd
    cases hst : parseHour st with
    | none => rw [validateSlot, hst] at hd; exact absurd hd (by simp)
    | some s0 =>
      cases het : parseHour et with
      | none => rw [validateSlot, hst, het] at hd; exact absurd hd (by simp)
      | some e0 =>
        simp only [validateSlot, hst, het] at hd
        by_cases hle : e0 ≤ s0
        · rw [if_pos hle] at hd
          exact absurd hd (by simp)
        · rw [if_neg hle] at hd
          obtain rfl : e0 - s0 = d := Option.some.inj hd
          exact ⟨by omega, s0, e0, rfl, rfl, rfl⟩
  · intro db r sp d hsp hd hc
    simp [create_booking, hsp, hd, hc]

/-- Witness for claim C4: the success case at 09:00 to 11:00. -/
theorem claim_C4_witness :
    0 < (2 : Int) ∧
    ∃ s e, parseHour "09:00" = some s ∧ parseHour "11:00" = some e ∧ (2 : Int) = e - s :=
  (claim_C4 "09:00" "11:00").2.1 2 (by decide)

/-- A schema-valid request 01:00-02:00, outside futsal's hours [8, 23]. -/
def rOutside : Booking :=
  { customer_name := "Fi", phone := "0816", sport := "futsal", court := 1,
    date := "2024-06-01", start_time := "01:00", end_time := "02:00",
    status := "confirmed", notes := none, total_price := none }

/-- A schema-valid request for futsal court 99, 09:00-10:00. -/
def rCourt99 : Booking :=
  { customer_name := "Gi", phone := "0817", sport := "futsal", court := 99,
    date := "2024-06-01", start_time := "09:00", end_time := "10:00",
    status := "confirmed", notes := none, total_price := none }

/-- Claim C5 exhibit: the schema-valid request 01:00-02:00 has both hours
below futsal's open_hour 8, yet create_booking accepts and persists it —
the pipeline never compares the requested hours with the sport's
open_hour/close_hour. -/
theorem claim_C5 :
    bookingSchemaOK rOutside = true ∧
    parseHour rOutside.start_time = some 1 ∧
    parseHour rOutside.end_time = some 2 ∧
    futsal.open_hour = 8 ∧ futsal.close_hour = 23 ∧
    (1 : Int) < futsal.open_hour ∧
    (create_booking ⟨[futsal], []⟩ rOutside).2 = .ok 150000 ∧
    (create_booking ⟨[futsal], []⟩ rOutside).1.bookings = [storedOf rOutside 150000] := by
  refine ⟨by decide, by decide, by decide, by decide, by decide, by decide, by decide, by decide⟩

/-- Claim C6: whenever create_booking fails with any of the three errors,
the store after the request equals the store before it (every error is
raised before the persistence step). -/
theorem claim_C6 (db : DB) (r : Booking) (e : BookingError)
    (h : (create_booking db r).2 = .error e) :
    (create_booking db r).1 = db := by
  cases hfs : findSport db.sports r.sport with
  | none => simp [create_booking, hfs]
  | some sp0 =>
    cases hv : validateSlot r.start_time r.end_time with
    | none => simp [create_booking, hfs, hv]
    | some d0 =>
      cases hc : hasConflict db.bookings r.sport r.court r.date r.start_time r.end_time with
      | true => simp [create_booking, hfs, hv, hc]
      | false =>
        exfalso
        simp [create_booking, hfs, hv, hc] at h

/-- Witness for claim C6: a NotFound failure on an empty catalog leaves the
store unchanged. -/
theorem claim_C6_witness : (create_booking ⟨[], []⟩ rOk).1 = ⟨[], []⟩ :=
  claim_C6 ⟨[], []⟩ rOk .NotFound (by decide)

/-- Claim C7: list_sports on an empty catalog seeds exactly the three
defaults (futsal 3 courts at 150000, hours 8-23; minisoccer 2 at 250000,
8-23; badminton 6 at 60000, 7-22) and returns them; a second call on the
now non-empty catalog skips seeding, returns the same three sports, and
leaves the store unchanged — 3 sports both times, never 6. -/
theorem claim_C7 (bk : List Booking) :
    (list_sports ⟨[], bk⟩).2 = defaultSports ∧
    (list_sports ⟨[], bk⟩).1.sports = defaultSports ∧
    (list_sports (list_sports ⟨[], bk⟩).1).2 = defaultSports ∧
    (list_sports (list_sports ⟨[], bk⟩).1).1 = (list_sports ⟨[], bk⟩).1 ∧
    defaultSports.length = 3 ∧
    defaultSports = [futsal, minisoccer, badminton] ∧
    futsal.courts = 3 ∧ futsal.price_per_hour = 150000 ∧
    futsal.open_hour = 8 ∧ futsal.close_hour = 23 ∧
    minisoccer.courts = 2 ∧ minisoccer.price_per_hour = 250000 ∧
    minisoccer.open_hour = 8 ∧ minisoccer.close_hour = 23 ∧
    badminton.courts = 6 ∧ badminton.price_per_hour = 60000 ∧
    badminton.open_hour = 7 ∧ badminton.close_hour = 22 :=
  ⟨rfl, rfl, rfl, rfl, rfl, rfl, rfl, rfl, rfl, rfl, rfl, rfl, rfl, rfl, rfl, rfl, rfl, rfl⟩

/-- Claim C8 exhibit: the request for futsal court 99 satisfies the schema
(which only enforces court >= 1), exceeds futsal's 3 courts, yet
create_booking accepts and persists it — no upper-bound check on the court
number exists in the pipeline. -/
theorem claim_C8 :
    bookingSchemaOK rCourt99 = true ∧
    futsal.courts = 3 ∧
    rCourt99.court = 99 ∧
    futsal.courts < rCourt99.court ∧
    (create_booking ⟨[futsal], []⟩ rCourt99).2 = .ok 150000 ∧
    (create_booking ⟨[futsal], []⟩ rCourt99).1.bookings = [storedOf rCourt99 150000] := by
  refine ⟨by decide, by decide, by decide, by decide, by decide, by decide⟩

/-- The Boolean query filter, unfolded to field equalities. -/
theorem matchQ_iff (b : Booking) (sport date : Option String) :
    matchQ b sport date = true ↔
      ((match sport with | none => True | some s => s = "" ∨ b.sport = s) ∧
       (match date with | none => True | some d => d = "" ∨ b.date = d)) := by
  unfold matchQ
  rw [Bool.and_eq_true]
  apply and_congr
  · cases sport with
    | none => simp
    | some s =>
      by_cases h : s = ""
      · simp [h]
      · simp [h]
  · cases date with
    | none => simp
    | some d =>
      by_cases h : d = ""
      · simp [h]
      · simp [h]

/-- Claim C9 (amended): list_bookings returns exactly (as a multiset) the
stored bookings whose sport and date fields equal the given filter values,
a filter value that is omitted or is the empty string matching everything
(the handler adds a field constraint only for a truthy parameter), ordered
by date ascending then start_time ascending in string order. -/
theorem claim_C9 (db : DB) (sport date : Option String) :
    (list_bookings db sport date).Perm
      (db.bookings.filter (fun b => matchQ b sport date)) ∧
    (∀ b, b ∈ list_bookings db sport date ↔
      b ∈ db.bookings ∧
      (match sport with | none => True | some s => s = "" ∨ b.sport = s) ∧
      (match date with | none => True | some d => d = "" ∨ b.date = d)) ∧
    (list_bookings db sport date).Pairwise
      (fun b1 b2 => strLt b1.date b2.date = true ∨
        (b1.date = b2.date ∧ strLt b2.start_time b1.start_time = false)) := by
  refine ⟨sortBookings_perm _, ?_, ?_⟩
  · intro b
    rw [show list_bookings db sport date =
        sortBookings (db.bookings.filter (fun b => matchQ b sport date)) from rfl,
      (sortBookings_perm _).mem_iff, List.mem_filter]
    exact and_congr Iff.rfl (matchQ_iff b sport date)
  · have hconv : ∀ {x y : Booking}, keyLE x y = true →
        (strLt x.date y.date = true ∨
          (x.date = y.date ∧ strLt y.start_time x.start_time = false)) := by
      intro x y h
      unfold keyLE at h
      simp only [Bool.or_eq_true, Bool.and_eq_true, beq_iff_eq, Bool.not_eq_true'] at h
      exact h
    exact (pairwise_sortBookings _).imp hconv

/-- Claim C9 counterexample: with the filter value set to the empty string,
the handler returns a booking whose sport field differs from that filter
value — Python truthiness drops the empty-string constraint instead of
matching against it. -/
theorem claim_C9_counterexample :
    list_bookings ⟨[], [bEx0810]⟩ (some "") none = [bEx0810] ∧
    bEx0810.sport ≠ "" := by
  decide

/-- Claim C10: when both time fields match the schema's pattern, hour
parsing cannot fail (the exception branch is unreachable), and the
validation step yields InvalidRange exactly when the parsed end hour is at
most the parsed start hour. -/
theorem claim_C10 (st et : String)
    (hs : matchesTimePattern st = true) (he : matchesTimePattern et = true) :
    (∃ a, parseHour st = some a) ∧ (∃ b, parseHour et = some b) ∧
    (∀ a b, parseHour st = some a → parseHour et = some b →
      (validateSlot st et = none ↔ b ≤ a)) := by
  have hps := pattern_parses st ((matchesTimePattern_iff st).mp hs)
  have hpe := pattern_parses et ((matchesTimePattern_iff et).mp he)
  obtain ⟨a0, ha0⟩ := Option.isSome_iff_exists.mp hps
  obtain ⟨b0, hb0⟩ := Option.isSome_iff_exists.mp hpe
  refine ⟨⟨a0, ha0⟩, ⟨b0, hb0⟩, ?_⟩
  intro a b ha hb
  simp only [validateSlot, ha, hb]
  by_cases hle : b ≤ a
  · simp [hle]
  · simp [hle]

/-- Witness for claim C10 at the pattern-matching inputs 09:00 and 10:00. -/
theorem claim_C10_witness : ∃ a, parseHour "09:00" = some a :=
  (claim_C10 "09:00" "10:00" (by decide) (by decide)).1
